import Mathlib

/-!
Shallow embedding of the DNS wire-format decoder of `src/dnsEvents.ts`:
the domain-name decoder `decodeDnsName` and the resource-record-set
decoder `parseDnsRrSet`, together with the numeric-field readers they
use.  Byte buffers (JS `Uint8Array`) are modelled as `List Nat`; every
access in the source is bounds-guarded, and out-of-range reads are
modelled with `List.getD` (default 0), which is never observable.

The two `while` loops of the source are modelled with an explicit
iteration budget ("fuel") so that the definitions compute by kernel
reduction; the top-level entry points pass `buffer.length + 1`, which is
always sufficient because every iteration of either loop consumes at
least one byte.  Fuel-adequacy theorems below certify that the budget is
never exhausted, so the fuelled functions agree with the source loops on
every input.
-/

/-- Decidable equality for `Except`, used to evaluate the decoders on
concrete inputs by `decide`. -/
instance {ε α : Type} [DecidableEq ε] [DecidableEq α] : DecidableEq (Except ε α)
  | Except.ok a, Except.ok b =>
    if h : a = b then isTrue (by rw [h])
    else isFalse (by intro hc; injection hc; exact h (by assumption))
  | Except.ok _, Except.error _ => isFalse (by intro hc; cases hc)
  | Except.error _, Except.ok _ => isFalse (by intro hc; cases hc)
  | Except.error e, Except.error f =>
    if h : e = f then isTrue (by rw [h])
    else isFalse (by intro hc; injection hc; exact h (by assumption))

/-- Result of `decodeDnsName`: the JS object `{ name, newOffset }`. -/
structure NameResult where
  name : String
  newOffset : Nat
deriving DecidableEq, Repr

/-- The Node `Buffer.toString("ascii")`: each byte is masked to 7 bits and
read as a character. -/
def asciiToString (bs : List Nat) : String :=
  String.mk (bs.map fun b => Char.ofNat (b % 128))

/-- JS `bytes.slice(s, e)` on a byte array: the elements at indices
`s, …, e-1`, clamped to the array bounds. -/
def sliceBytes (bytes : List Nat) (s e : Nat) : List Nat :=
  (bytes.drop s).take (e - s)

/-- One step of the `while` loop of `decodeDnsName` (src/dnsEvents.ts,
lines 34-45), with an explicit iteration budget.  Reads a length-prefix
byte; zero terminates the name, a label that would run past the buffer
end throws, and otherwise the label is appended and the loop continues
past the label body.  The loop also exits (successfully) when the cursor
reaches the end of the buffer. -/
def decodeDnsNameLoop (bytes : List Nat) : Nat → String → Nat → Except String NameResult
  | 0, name, currentOffset => Except.ok ⟨name, currentOffset⟩
  | fuel + 1, name, currentOffset =>
    if currentOffset < bytes.length then
      let l := bytes.getD currentOffset 0
      if l = 0 then
        Except.ok ⟨name, currentOffset + 1⟩
      else if currentOffset + 1 + l > bytes.length then
        Except.error "Buffer too short for DnsName label"
      else
        decodeDnsNameLoop bytes fuel
          (name ++ asciiToString (sliceBytes bytes (currentOffset + 1) (currentOffset + 1 + l)) ++ ".")
          (currentOffset + 1 + l)
    else
      Except.ok ⟨name, currentOffset⟩

/-- `decodeDnsName` (src/dnsEvents.ts, lines 28-47): decodes a domain
name in label-sequence wire format starting at `offset`, returning the
dot-terminated name and the offset just past the name.  A budget of
`bytes.length + 1` loop iterations is always sufficient (each iteration
consumes at least one byte). -/
def decodeDnsName (bytes : List Nat) (offset : Nat) : Except String NameResult :=
  decodeDnsNameLoop bytes (bytes.length + 1) "" offset

/-- The big-endian 16-bit read `(bytes[i] << 8) | bytes[i+1]` used for
the type, class and rdataLength fields.  For byte values (< 256) the JS
32-bit signed operators cannot overflow, so the value is a plain `Nat`. -/
def readU16 (bytes : List Nat) (i : Nat) : Nat :=
  ((bytes.getD i 0) <<< 8) ||| bytes.getD (i + 1) 0

/-- Reinterpretation of a natural number as a JS 32-bit signed integer
(twos complement), as produced by the JS `<<`/`|` operators. -/
def toInt32 (n : Nat) : Int :=
  if n % 4294967296 < 2147483648 then ((n % 4294967296 : Nat) : Int)
  else ((n % 4294967296 : Nat) : Int) - 4294967296

/-- The ttl read `(bytes[i] << 24) | (bytes[i+1] << 16) | (bytes[i+2] << 8) | bytes[i+3]`
(src/dnsEvents.ts, lines 85-90).  JS `<<` and `|` act on 32-bit signed
integers, so for byte inputs the result is the twos-complement
reinterpretation of the big-endian 32-bit value: negative when the first
byte is at least 0x80. -/
def readTtl (bytes : List Nat) (i : Nat) : Int :=
  toInt32 (((bytes.getD i 0) <<< 24) ||| ((bytes.getD (i + 1) 0) <<< 16) |||
    ((bytes.getD (i + 2) 0) <<< 8) ||| bytes.getD (i + 3) 0)

/-- Lower-case hex digit, as used by `ethers.hexlify`. -/
def hexDigitChar (n : Nat) : Char :=
  Char.ofNat (if n < 10 then 48 + n else 87 + n)

/-- `ethers.hexlify`: a `0x`-prefixed lower-case hex rendering of a byte
array. -/
def hexlify (bs : List Nat) : String :=
  "0x" ++ String.mk (List.flatten (bs.map fun b => [hexDigitChar (b / 16), hexDigitChar (b % 16)]))

/-- Value of one hex digit character (0-9, a-f, A-F). -/
def hexDigitToNat (c : Char) : Nat :=
  if 48 ≤ c.toNat ∧ c.toNat ≤ 57 then c.toNat - 48
  else if 97 ≤ c.toNat ∧ c.toNat ≤ 102 then c.toNat - 87
  else if 65 ≤ c.toNat ∧ c.toNat ≤ 70 then c.toNat - 55
  else 0

/-- Pairs of hex digit characters to bytes. -/
def hexPairsToBytes : List Char → List Nat
  | c1 :: c2 :: rest => (16 * hexDigitToNat c1 + hexDigitToNat c2) :: hexPairsToBytes rest
  | _ => []

/-- `ethers.getBytes` / `Buffer.from(hex, "hex")` on an even-length hex
literal: the byte array it denotes. -/
def hexToBytes (s : String) : List Nat :=
  hexPairsToBytes s.data

/-- The `rr.rdata` field: either a decoded domain name (NS records of
class IN) or the `ethers.hexlify` rendering of the raw RDATA bytes. -/
inductive Rdata where
  | domainName : String → Rdata
  | rawHex : String → Rdata
deriving DecidableEq, Repr

/-- The record object pushed by `parseDnsRrSet`: owner name, type,
class, ttl and rdata (the rdataLength is consumed but not retained).
The ttl is an `Int` because the JS shift/or assembly is 32-bit signed. -/
structure ResourceRecord where
  name : String
  type : Nat
  rrClass : Nat
  ttl : Int
  rdata : Rdata
deriving DecidableEq, Repr

/-- The body of one iteration of the `while` loop of `parseDnsRrSet`
(src/dnsEvents.ts, lines 61-119): decode the owner name, then the
fixed-width type / class / ttl / rdataLength fields, then the RDATA.
`none` models every way the iteration fails to push a record: a thrown
name-decode error (caught by the `catch`, which breaks) and each
bounds-check `break`.  `some (rr, offset')` is the pushed record and the
cursor after the record. -/
def parseStep (rawBytes : List Nat) (offset : Nat) : Option (ResourceRecord × Nat) :=
  match decodeDnsName rawBytes offset with
  | Except.error _ => none
  | Except.ok nameResult =>
    -- 2. type: `if (offset + 2 > rawBytes.length) break`
    if nameResult.newOffset + 2 > rawBytes.length then none
    -- 3. class
    else if nameResult.newOffset + 4 > rawBytes.length then none
    -- 4. ttl
    else if nameResult.newOffset + 8 > rawBytes.length then none
    -- 5. rdataLength
    else if nameResult.newOffset + 10 > rawBytes.length then none
    -- 6. rdata: `if (offset + rdLength > rawBytes.length) break`
    else if nameResult.newOffset + 10 + readU16 rawBytes (nameResult.newOffset + 8) > rawBytes.length then none
    else if readU16 rawBytes nameResult.newOffset = 2 ∧ readU16 rawBytes (nameResult.newOffset + 2) = 1 then
      -- NS record: decode RDATA as a domain name (this call can also throw)
      match decodeDnsName (sliceBytes rawBytes (nameResult.newOffset + 10)
          (nameResult.newOffset + 10 + readU16 rawBytes (nameResult.newOffset + 8))) 0 with
      | Except.error _ => none
      | Except.ok r =>
        some (⟨nameResult.name, readU16 rawBytes nameResult.newOffset,
               readU16 rawBytes (nameResult.newOffset + 2),
               readTtl rawBytes (nameResult.newOffset + 4),
               Rdata.domainName r.name⟩,
              nameResult.newOffset + 10 + readU16 rawBytes (nameResult.newOffset + 8))
    else
      some (⟨nameResult.name, readU16 rawBytes nameResult.newOffset,
             readU16 rawBytes (nameResult.newOffset + 2),
             readTtl rawBytes (nameResult.newOffset + 4),
             Rdata.rawHex (hexlify (sliceBytes rawBytes (nameResult.newOffset + 10)
               (nameResult.newOffset + 10 + readU16 rawBytes (nameResult.newOffset + 8))))⟩,
            nameResult.newOffset + 10 + readU16 rawBytes (nameResult.newOffset + 8))

/-- The `while (offset < rawBytes.length)` loop of `parseDnsRrSet`, with
an explicit iteration budget.  A step that pushes no record (a caught
error or a bounds-check `break`) ends the loop, returning the records
accumulated so far. -/
def parseLoop (rawBytes : List Nat) : Nat → Nat → List ResourceRecord → List ResourceRecord
  | 0, _, records => records
  | fuel + 1, offset, records =>
    if offset < rawBytes.length then
      match parseStep rawBytes offset with
      | none => records
      | some (rr, offset') => parseLoop rawBytes fuel offset' (records ++ [rr])
    else records

/-- `parseDnsRrSet` (src/dnsEvents.ts, lines 52-121): decodes the
expected owner name from the event argument (a thrown error there
propagates out of the function), then iterates `parseStep` from offset 0
and returns the accumulated records.  The owner name is used only for a
console warning and does not influence the result.  A budget of
`recordBytes.length + 1` iterations is always sufficient (each pushed
record consumes at least ten bytes). -/
def parseDnsRrSet (recordBytes : List Nat) (eventOwnerNameBytes : List Nat) :
    Except String (List ResourceRecord) :=
  match decodeDnsName eventOwnerNameBytes 0 with
  | Except.error e => Except.error e
  | Except.ok _ => Except.ok (parseLoop recordBytes (recordBytes.length + 1) 0 [])

/-! Helper lemmas about the name-decoder loop. -/

/-- Unfolding the name loop when the cursor is already at or past the
buffer end: the loop exits and returns the name accumulated so far. -/
theorem decodeDnsNameLoop_atEnd (bytes : List Nat) (name : String) (co : Nat)
    (h : bytes.length ≤ co) :
    ∀ fuel, decodeDnsNameLoop bytes fuel name co = Except.ok ⟨name, co⟩ := by
  intro fuel
  cases fuel with
  | zero => rfl
  | succ n =>
    have hn : ¬ co < bytes.length := by omega
    simp [decodeDnsNameLoop, hn]

/-- Unfolding the name loop at a zero length byte: the name ends and the
cursor moves just past the zero byte. -/
theorem decodeDnsNameLoop_zeroLabel (bytes : List Nat) (name : String) (co fuel : Nat)
    (h : co < bytes.length) (hz : bytes[co] = 0) :
    decodeDnsNameLoop bytes (fuel + 1) name co = Except.ok ⟨name, co + 1⟩ := by
  simp [decodeDnsNameLoop, h, hz]

/-- Unfolding the name loop at a nonzero length byte whose label body
fits in the buffer: the label is appended and the loop continues past
the label body. -/
theorem decodeDnsNameLoop_label (bytes : List Nat) (name : String) (co fuel : Nat)
    (h : co < bytes.length) (hl : bytes[co] ≠ 0)
    (hfit : co + 1 + bytes[co] ≤ bytes.length) :
    decodeDnsNameLoop bytes (fuel + 1) name co =
      decodeDnsNameLoop bytes fuel
        (name ++ asciiToString (sliceBytes bytes (co + 1) (co + 1 + bytes[co])) ++ ".")
        (co + 1 + bytes[co]) := by
  have hng : ¬ bytes.length < co + 1 + bytes[co] := by omega
  simp [decodeDnsNameLoop, h, hl, hng]

/-- Unfolding the name loop at a nonzero length byte whose label body
would run past the buffer end: the decoder throws. -/
theorem decodeDnsNameLoop_overflow (bytes : List Nat) (name : String) (co fuel : Nat)
    (h : co < bytes.length) (hl : bytes[co] ≠ 0)
    (hov : bytes.length < co + 1 + bytes[co]) :
    decodeDnsNameLoop bytes (fuel + 1) name co =
      Except.error "Buffer too short for DnsName label" := by
  simp [decodeDnsNameLoop, h, hl, hov]

/-- The name loop never moves the cursor backwards: on success, the
returned offset is at least the starting offset. -/
theorem decodeDnsNameLoop_mono (bytes : List Nat) :
    ∀ fuel name co r, decodeDnsNameLoop bytes fuel name co = Except.ok r →
      co ≤ r.newOffset := by
  intro fuel
  induction fuel with
  | zero =>
    intro name co r h
    injection h with h
    rw [← h]
  | succ n ih =>
    intro name co r h
    simp only [decodeDnsNameLoop] at h
    split at h
    · split at h
      · injection h with h
        rw [← h]
        exact Nat.le_succ co
      · split at h
        · cases h
        · have := ih _ _ _ h
          omega
    · injection h with h
      rw [← h]

/-- The name loop gives the same answer under any two sufficient fuel
budgets: the loop needs at most one iteration per remaining byte, plus
one.  This certifies that the budget `bytes.length + 1` used by
`decodeDnsName` models the unbounded source loop. -/
theorem decodeDnsNameLoop_fuel (bytes : List Nat) :
    ∀ f1 f2 name co, bytes.length - co < f1 → bytes.length - co < f2 →
      decodeDnsNameLoop bytes f1 name co = decodeDnsNameLoop bytes f2 name co := by
  intro f1
  induction f1 with
  | zero => intro f2 name co h1 _; omega
  | succ n ih =>
    intro f2 name co h1 h2
    match f2, h2 with
    | f2 + 1, h2 =>
      by_cases h : co < bytes.length
      · by_cases hz : bytes[co] = 0
        · rw [decodeDnsNameLoop_zeroLabel bytes name co n h hz,
            decodeDnsNameLoop_zeroLabel bytes name co f2 h hz]
        · by_cases hfit : co + 1 + bytes[co] ≤ bytes.length
          · rw [decodeDnsNameLoop_label bytes name co n h hz hfit,
              decodeDnsNameLoop_label bytes name co f2 h hz hfit]
            exact ih f2 _ _ (by omega) (by omega)
          · rw [decodeDnsNameLoop_overflow bytes name co n h hz (by omega),
              decodeDnsNameLoop_overflow bytes name co f2 h hz (by omega)]
      · rw [decodeDnsNameLoop_atEnd bytes name co (by omega) (n + 1),
          decodeDnsNameLoop_atEnd bytes name co (by omega) (f2 + 1)]

/-- `decodeDnsName` never moves the cursor backwards. -/
theorem decodeDnsName_mono (bytes : List Nat) (offset : Nat) (r : NameResult)
    (h : decodeDnsName bytes offset = Except.ok r) : offset ≤ r.newOffset :=
  decodeDnsNameLoop_mono bytes (bytes.length + 1) "" offset r h

/-! Helper lemmas about the record-set loop. -/

/-- A successful `parseStep` strictly advances the cursor (by at least
ten bytes past the owner name) and never moves it past the buffer end. -/
theorem parseStep_lt (rawBytes : List Nat) (offset : Nat) (rr : ResourceRecord)
    (offset' : Nat) (h : parseStep rawBytes offset = some (rr, offset')) :
    offset < offset' ∧ offset' ≤ rawBytes.length := by
  simp only [parseStep] at h
  split at h
  next => cases h
  next nameResult heq =>
    have hmono : offset ≤ nameResult.newOffset := decodeDnsName_mono rawBytes offset nameResult heq
    split at h
    next => cases h
    next h2 =>
    split at h
    next => cases h
    next h4 =>
    split at h
    next => cases h
    next h8 =>
    split at h
    next => cases h
    next h10 =>
    split at h
    next => cases h
    next hrd =>
    split at h
    next hns =>
      split at h
      next => cases h
      next r hr =>
        injection h with h1
        injection h1 with ha hb
        omega
    next hns =>
      injection h with h1
      injection h1 with ha hb
      omega

/-- Characterisation of a successful `parseStep`: every field of the
returned record was read, in bounds, from its wire position — the owner
name by `decodeDnsName`, type / class / rdataLength as big-endian 16-bit
reads, ttl as the 32-bit read, and the RDATA either decoded as a domain
name (type 2, class 1) or kept as the hex rendering of the RDATA slice. -/
theorem parseStep_some_spec (rawBytes : List Nat) (offset : Nat) (rr : ResourceRecord)
    (offset' : Nat) (h : parseStep rawBytes offset = some (rr, offset')) :
    ∃ nr : NameResult, decodeDnsName rawBytes offset = Except.ok nr ∧
      rr.name = nr.name ∧
      nr.newOffset + 10 + readU16 rawBytes (nr.newOffset + 8) ≤ rawBytes.length ∧
      rr.type = readU16 rawBytes nr.newOffset ∧
      rr.rrClass = readU16 rawBytes (nr.newOffset + 2) ∧
      rr.ttl = readTtl rawBytes (nr.newOffset + 4) ∧
      offset' = nr.newOffset + 10 + readU16 rawBytes (nr.newOffset + 8) ∧
      ((rr.type = 2 ∧ rr.rrClass = 1) →
        ∃ r : NameResult,
          decodeDnsName (sliceBytes rawBytes (nr.newOffset + 10)
            (nr.newOffset + 10 + readU16 rawBytes (nr.newOffset + 8))) 0 = Except.ok r ∧
          rr.rdata = Rdata.domainName r.name) ∧
      (¬ (rr.type = 2 ∧ rr.rrClass = 1) →
        rr.rdata = Rdata.rawHex (hexlify (sliceBytes rawBytes (nr.newOffset + 10)
          (nr.newOffset + 10 + readU16 rawBytes (nr.newOffset + 8))))) := by
  simp only [parseStep] at h
  split at h
  next => cases h
  next nameResult heq =>
    split at h
    next => cases h
    next h2 =>
    split at h
    next => cases h
    next h4 =>
    split at h
    next => cases h
    next h8 =>
    split at h
    next => cases h
    next h10 =>
    split at h
    next => cases h
    next hrd =>
    split at h
    next hns =>
      split at h
      next => cases h
      next r hr =>
        injection h with h1
        injection h1 with ha hb
        subst ha
        subst hb
        exact ⟨nameResult, heq, rfl, by omega, rfl, rfl, rfl, rfl,
          fun _ => ⟨r, hr, rfl⟩, fun hn => absurd hns hn⟩
    next hns =>
      injection h with h1
      injection h1 with ha hb
      subst ha
      subst hb
      exact ⟨nameResult, heq, rfl, by omega, rfl, rfl, rfl, rfl,
        fun hy => absurd hy hns, fun _ => rfl⟩

/-- The record loop gives the same answer under any two sufficient fuel
budgets: every iteration that continues consumes at least one byte, so
one iteration per buffer byte, plus one, always suffices.  This
certifies that the budget `rawBytes.length + 1` used by `parseDnsRrSet`
models the unbounded source loop. -/
theorem parseLoop_fuel (rawBytes : List Nat) :
    ∀ f1 f2 offset records, rawBytes.length - offset < f1 → rawBytes.length - offset < f2 →
      parseLoop rawBytes f1 offset records = parseLoop rawBytes f2 offset records := by
  intro f1
  induction f1 with
  | zero => intro f2 offset records h1 _; omega
  | succ n ih =>
    intro f2 offset records h1 h2
    match f2, h2 with
    | f2 + 1, h2 =>
      by_cases h : offset < rawBytes.length
      · cases hs : parseStep rawBytes offset with
        | none => simp [parseLoop, h, hs]
        | some p =>
          obtain ⟨rr, offset'⟩ := p
          have hadv := parseStep_lt rawBytes offset rr offset' hs
          simp only [parseLoop, if_pos h, hs]
          exact ih f2 offset' (records ++ [rr]) (by omega) (by omega)
      · simp [parseLoop, h]

/-- Every record in the output of the record loop is either one of the
initially accumulated records or the record of some successful
`parseStep`. -/
theorem parseLoop_mem (rawBytes : List Nat) :
    ∀ fuel offset records rr, rr ∈ parseLoop rawBytes fuel offset records →
      rr ∈ records ∨ ∃ o o', parseStep rawBytes o = some (rr, o') := by
  intro fuel
  induction fuel with
  | zero =>
    intro offset records rr h
    simp only [parseLoop] at h
    exact Or.inl h
  | succ n ih =>
    intro offset records rr h
    by_cases ho : offset < rawBytes.length
    · cases hs : parseStep rawBytes offset with
      | none =>
        simp only [parseLoop, if_pos ho, hs] at h
        exact Or.inl h
      | some p =>
        obtain ⟨rr0, offset'⟩ := p
        simp only [parseLoop, if_pos ho, hs] at h
        rcases ih offset' (records ++ [rr0]) rr h with hmem | hex
        · rcases List.mem_append.mp hmem with h1 | h2
          · exact Or.inl h1
          · have hrr : rr = rr0 := by simpa using h2
            exact Or.inr ⟨offset, offset', by rw [hrr]; exact hs⟩
        · exact Or.inr hex
    · simp only [parseLoop, if_neg ho] at h
      exact Or.inl h

/-! Claim C1. -/

set_option maxRecDepth 4000 in
/-- C1, counterexample: the decoder does not fail with an
`UnsupportedCompression` error on a compression-pointer byte.  A buffer
whose name starts with the pointer byte 0xC0 = 192 followed by 192
bytes and a zero terminator decodes successfully, with the pointer byte
treated as a literal label length; and when fewer than 192 bytes
follow, the failure is the buffer-too-short error, not an
unsupported-compression error. -/
theorem c1_counterexample :
    decodeDnsName (192 :: (List.replicate 192 97 ++ [0])) 0 =
      Except.ok ⟨String.mk (List.replicate 192 'a') ++ ".", 194⟩ ∧
    decodeDnsName [192, 0] 0 = Except.error "Buffer too short for DnsName label" := by
  decide

/-- C1, amended: when the Name Decoder encounters a length byte with
the top two bits set (value at least 192), it treats the byte as a
literal label length: if that many bytes remain after the prefix it
consumes them as a label and continues, and otherwise it fails with the
buffer-too-short error.  No `UnsupportedCompression` error exists. -/
theorem c1_pointer_treated_as_length (bytes : List Nat) (name : String) (co fuel : Nat)
    (h : co < bytes.length) (hp : 192 ≤ bytes[co]) :
    (co + 1 + bytes[co] ≤ bytes.length →
      decodeDnsNameLoop bytes (fuel + 1) name co =
        decodeDnsNameLoop bytes fuel
          (name ++ asciiToString (sliceBytes bytes (co + 1) (co + 1 + bytes[co])) ++ ".")
          (co + 1 + bytes[co])) ∧
    (bytes.length < co + 1 + bytes[co] →
      decodeDnsNameLoop bytes (fuel + 1) name co =
        Except.error "Buffer too short for DnsName label") := by
  have hl : bytes[co] ≠ 0 := by omega
  exact ⟨fun hfit => decodeDnsNameLoop_label bytes name co fuel h hl hfit,
    fun hov => decodeDnsNameLoop_overflow bytes name co fuel h hl hov⟩

/-- C1, witness for the amended theorem at the concrete buffer
`[192, 0]`. -/
theorem c1_pointer_treated_as_length_witness :
    decodeDnsNameLoop [192, 0] 2 "" 0 = Except.error "Buffer too short for DnsName label" :=
  (c1_pointer_treated_as_length [192, 0] "" 0 1 (by decide) (by decide)).2 (by decide)

/-! Claim C2. -/

/-- C2, counterexample: a name whose terminating zero label is missing
returns successfully (the buffer `[1, 97]` holds the label "a" and then
ends), and a start offset at the buffer end, where even the first
length-prefix byte is missing, also returns successfully with an empty
name instead of failing with a truncation error. -/
theorem c2_counterexample :
    decodeDnsName [1, 97] 0 = Except.ok ⟨"a.", 2⟩ ∧
    decodeDnsName [] 0 = Except.ok ⟨"", 0⟩ := by
  decide

/-- C2, amended: the Name Decoder fails with the buffer-too-short error
exactly when a declared label body would read past the buffer end.
When the buffer ends where a length-prefix byte would be read
(including a name whose terminating zero label is missing), the loop
exits and returns successfully with the labels decoded so far. -/
theorem c2_truncation_only_for_label_bodies (bytes : List Nat) (name : String) (co fuel : Nat) :
    (bytes.length ≤ co → decodeDnsNameLoop bytes fuel name co = Except.ok ⟨name, co⟩) ∧
    (∀ h : co < bytes.length, bytes[co] ≠ 0 → bytes.length < co + 1 + bytes[co] →
      decodeDnsNameLoop bytes (fuel + 1) name co =
        Except.error "Buffer too short for DnsName label") :=
  ⟨fun h => decodeDnsNameLoop_atEnd bytes name co h fuel,
   fun h hl hov => decodeDnsNameLoop_overflow bytes name co fuel h hl hov⟩

/-- C2, witness for the amended theorem: the loop state reached by
`decodeDnsName [1, 97] 0` returns successfully at the buffer end, and
`[2, 97]` fails because the two-byte label body does not fit. -/
theorem c2_truncation_only_for_label_bodies_witness :
    decodeDnsNameLoop [1, 97] 5 "a." 2 = Except.ok ⟨"a.", 2⟩ ∧
    decodeDnsNameLoop [2, 97] 1 "" 0 = Except.error "Buffer too short for DnsName label" :=
  ⟨(c2_truncation_only_for_label_bodies [1, 97] "a." 2 5).1 (by decide),
   (c2_truncation_only_for_label_bodies [2, 97] "" 0 0).2 (by decide) (by decide) (by decide)⟩

/-! Claim C3. -/

/-- C3: decoding the concrete scenario-A buffer yields exactly one
resource record with owner name "moe.box.", type 2, class 1, ttl 14400,
and RDATA the decoded domain name "derek.ns.cloudflare.com.". -/
theorem c3_scenario_a :
    parseDnsRrSet
      (hexToBytes "036d6f6503626f78000002000100003840001905646572656b026e730a636c6f7564666c61726503636f6d00")
      (hexToBytes "036d6f6503626f7800") =
    Except.ok [{ name := "moe.box.", type := 2, rrClass := 1, ttl := 14400,
                 rdata := Rdata.domainName "derek.ns.cloudflare.com." }] := by
  decide

/-! Claim C4. -/

/-- C4, counterexample: on the buffer `[2, 97]` the name decoder throws
(two-byte label body, one byte present), yet the value returned by the
RRSet decoder is `Except.ok []` — identical to the value returned for a
clean pass over the empty buffer.  The error and its offset are only
logged to the console, so the caller cannot distinguish an
error-terminated pass from a clean pass from the returned value. -/
theorem c4_counterexample :
    decodeDnsName [2, 97] 0 = Except.error "Buffer too short for DnsName label" ∧
    parseDnsRrSet [2, 97] [] = Except.ok [] ∧
    parseDnsRrSet [] [] = Except.ok [] := by
  decide

/-- C4, amended: whenever decoding a record fails with a Name Decoder
error, the RRSet Decoder stops and returns exactly the records decoded
before the failure; the error and the offset are written to the console
only and are not represented in the returned value. -/
theorem c4_error_returns_partial_records (rawBytes : List Nat) (offset fuel : Nat)
    (records : List ResourceRecord) (e : String)
    (h : offset < rawBytes.length) (herr : decodeDnsName rawBytes offset = Except.error e) :
    parseLoop rawBytes (fuel + 1) offset records = records := by
  have hs : parseStep rawBytes offset = none := by
    simp only [parseStep, herr]
  simp [parseLoop, h, hs]

/-- C4, witness for the amended theorem at the concrete buffer
`[2, 97]`. -/
theorem c4_error_returns_partial_records_witness :
    parseLoop [2, 97] 3 0 [] = [] :=
  c4_error_returns_partial_records [2, 97] 0 2 [] "Buffer too short for DnsName label"
    (by decide) (by decide)

/-! Claim C5. -/

/-- C5: the empty buffer decodes to an empty record sequence, and
whenever reading any fixed-width field or the rdataLength-byte RDATA of
the record at the current offset would exceed the buffer bound, the
decode loop returns exactly the records accumulated in earlier
iterations, without fabricating values for the partially-read record.
(The single bound `length < newOffset + 10 + rdLength` covers every
truncation case: if an earlier fixed-width field already fails its
bound check, the unreadable rdataLength bytes read as zero.) -/
theorem c5_truncation_stops_loop (rawBytes : List Nat) (offset fuel : Nat)
    (records : List ResourceRecord) (nr : NameResult) :
    parseDnsRrSet [] [] = Except.ok [] ∧
    (offset < rawBytes.length → decodeDnsName rawBytes offset = Except.ok nr →
      rawBytes.length < nr.newOffset + 10 + readU16 rawBytes (nr.newOffset + 8) →
      parseLoop rawBytes (fuel + 1) offset records = records) := by
  constructor
  · decide
  · intro ho hok hlt
    have hs : parseStep rawBytes offset = none := by
      simp only [parseStep, hok]
      split
      · rfl
      · split
        · rfl
        · split
          · rfl
          · split
            · rfl
            · rfl
    simp [parseLoop, ho, hs]

/-- C5, witness: a buffer holding a full owner name and then only the
two type bytes stops at the class field and returns no record. -/
theorem c5_truncation_stops_loop_witness :
    parseDnsRrSet [] [] = Except.ok [] ∧
    parseLoop (hexToBytes "036d6f6503626f78000002") 12 0 [] = [] :=
  ⟨(c5_truncation_stops_loop (hexToBytes "036d6f6503626f78000002") 0 11 [] ⟨"moe.box.", 9⟩).1,
   (c5_truncation_stops_loop (hexToBytes "036d6f6503626f78000002") 0 11 [] ⟨"moe.box.", 9⟩).2
     (by decide) (by decide) (by decide)⟩

/-! Claim C6. -/

/-- C6: for every record produced by a successful decode step, the
RDATA is a decoded domain name if and only if the type of the record is 2
and its class is 1; in that case it is the result of a nested
`decodeDnsName` call over the RDATA slice at offset 0, and for every
other type/class combination the RDATA is retained as the raw bytes
(their hex rendering). -/
theorem c6_ns_rdata_branching (rawBytes : List Nat) (offset : Nat) (rr : ResourceRecord)
    (offset' : Nat) (h : parseStep rawBytes offset = some (rr, offset')) :
    ((rr.type = 2 ∧ rr.rrClass = 1) ↔ ∃ s, rr.rdata = Rdata.domainName s) ∧
    ∃ nr : NameResult, decodeDnsName rawBytes offset = Except.ok nr ∧
      ((rr.type = 2 ∧ rr.rrClass = 1) →
        ∃ r : NameResult,
          decodeDnsName (sliceBytes rawBytes (nr.newOffset + 10)
            (nr.newOffset + 10 + readU16 rawBytes (nr.newOffset + 8))) 0 = Except.ok r ∧
          rr.rdata = Rdata.domainName r.name) ∧
      (¬ (rr.type = 2 ∧ rr.rrClass = 1) →
        rr.rdata = Rdata.rawHex (hexlify (sliceBytes rawBytes (nr.newOffset + 10)
          (nr.newOffset + 10 + readU16 rawBytes (nr.newOffset + 8))))) := by
  obtain ⟨nr, hok, hname, hbound, htype, hclass, httl, hoff, hns, hraw⟩ :=
    parseStep_some_spec rawBytes offset rr offset' h
  refine ⟨⟨fun hy => ?_, fun hd => ?_⟩, nr, hok, hns, hraw⟩
  · obtain ⟨r, _, hrd⟩ := hns hy
    exact ⟨r.name, hrd⟩
  · by_contra hn
    obtain ⟨s, hs⟩ := hd
    rw [hraw hn] at hs
    cases hs

/-- C6, witness at the scenario-A record (type 2, class 1, RDATA
decoded as a domain name). -/
theorem c6_ns_rdata_branching_witness :
    ((ResourceRecord.mk "moe.box." 2 1 14400
        (Rdata.domainName "derek.ns.cloudflare.com.")).type = 2 ∧
      (ResourceRecord.mk "moe.box." 2 1 14400
        (Rdata.domainName "derek.ns.cloudflare.com.")).rrClass = 1) ↔
    ∃ s, (ResourceRecord.mk "moe.box." 2 1 14400
        (Rdata.domainName "derek.ns.cloudflare.com.")).rdata = Rdata.domainName s :=
  (c6_ns_rdata_branching
    (hexToBytes "036d6f6503626f78000002000100003840001905646572656b026e730a636c6f7564666c61726503636f6d00")
    0 ⟨"moe.box.", 2, 1, 14400, Rdata.domainName "derek.ns.cloudflare.com."⟩ 44
    (by decide)).1

/-! Claim C7. -/

/-- C7: evaluation of the code at the failing input.  The scenario-A
buffer with its ttl field changed to the bytes 80 00 38 40 decodes with
ttl -2147469248: the JS `<<`/`|` assembly is 32-bit signed, so a ttl
whose first byte is at least 0x80 decodes to a negative value, not to
the unsigned 32-bit big-endian integer 2147498048 the claim (and DNS
ttl semantics) require. -/
theorem c7_ttl_signed_overflow :
    parseDnsRrSet
      (hexToBytes "036d6f6503626f78000002000180003840001905646572656b026e730a636c6f7564666c61726503636f6d00")
      (hexToBytes "036d6f6503626f7800") =
    Except.ok [{ name := "moe.box.", type := 2, rrClass := 1, ttl := -2147469248,
                 rdata := Rdata.domainName "derek.ns.cloudflare.com." }] ∧
    readTtl [128, 0, 56, 64] 0 < 0 := by
  decide

/-! Claim C8. -/

/-- C8, counterexample: the decoder performs no label-length
validation.  A buffer declaring a 64-byte label (one more than the
wire-format maximum of 63) decodes successfully into a name containing
that 64-byte label. -/
theorem c8_counterexample :
    decodeDnsName (64 :: (List.replicate 64 97 ++ [0])) 0 =
      Except.ok ⟨String.mk (List.replicate 64 'a') ++ ".", 66⟩ ∧
    63 < (String.mk (List.replicate 64 'a')).length := by
  decide

/-- C8, amended: the Name Decoder validates nothing about the declared
length of a label beyond the buffer bound: for every length byte `l` from
1 to 255 — including every value above 63 — a buffer holding the length
byte followed by `l` label bytes decodes successfully into a name with
an `l`-byte label. -/
theorem c8_no_label_length_limit (l : Nat) (h1 : 0 < l) (h2 : l ≤ 255) :
    decodeDnsName (l :: List.replicate l 97) 0 =
      Except.ok ⟨String.mk (List.replicate l 'a') ++ ".", l + 1⟩ := by
  have hlen : (l :: List.replicate l 97).length = l + 1 := by simp
  have h0 : 0 < (l :: List.replicate l 97).length := by simp
  have hb0 : (l :: List.replicate l 97)[0] = l := rfl
  have hl : (l :: List.replicate l 97)[0] ≠ 0 := by rw [hb0]; omega
  have hfit : 0 + 1 + (l :: List.replicate l 97)[0] ≤ (l :: List.replicate l 97).length := by
    rw [hb0, hlen]; omega
  show decodeDnsNameLoop (l :: List.replicate l 97)
    ((l :: List.replicate l 97).length + 1) "" 0 = _
  rw [hlen]
  rw [decodeDnsNameLoop_label (l :: List.replicate l 97) "" 0 (l + 1) h0 hl hfit]
  have hslice : sliceBytes (l :: List.replicate l 97) (0 + 1)
      (0 + 1 + (l :: List.replicate l 97)[0]) = List.replicate l 97 := by
    rw [hb0]
    simp [sliceBytes]
  have hascii : asciiToString (List.replicate l 97) = String.mk (List.replicate l 'a') := by
    have hc : Char.ofNat (97 % 128) = 'a' := by decide
    simp [asciiToString, List.map_replicate, hc]
  rw [hslice, hascii, hb0]
  have hempty : "" ++ String.mk (List.replicate l 'a') ++ "." =
      String.mk (List.replicate l 'a') ++ "." := rfl
  rw [hempty]
  have hco : 0 + 1 + l = l + 1 := by omega
  rw [hco]
  exact decodeDnsNameLoop_atEnd (l :: List.replicate l 97)
    (String.mk (List.replicate l 'a') ++ ".") (l + 1) (by rw [hlen]) (l + 1)

/-- C8, witness for the amended theorem at label length 64. -/
theorem c8_no_label_length_limit_witness :
    decodeDnsName (64 :: List.replicate 64 97) 0 =
      Except.ok ⟨String.mk (List.replicate 64 'a') ++ ".", 65⟩ :=
  c8_no_label_length_limit 64 (by decide) (by decide)

/-! Claim C9. -/

/-- C9: the record decode loop terminates on every finite buffer: every
decode step that pushes a record strictly advances the cursor (and
keeps it within the buffer, so the cursor is monotonically
non-decreasing and bounded), and consequently an iteration budget of
one step per buffer byte plus one is already enough — any larger budget
produces the same decode result. -/
theorem c9_loop_progress_and_termination (rawBytes : List Nat) (offset : Nat)
    (rr : ResourceRecord) (offset' extra : Nat) :
    (parseStep rawBytes offset = some (rr, offset') →
      offset < offset' ∧ offset' ≤ rawBytes.length) ∧
    parseLoop rawBytes (rawBytes.length + 1 + extra) 0 [] =
      parseLoop rawBytes (rawBytes.length + 1) 0 [] :=
  ⟨fun hs => parseStep_lt rawBytes offset rr offset' hs,
   parseLoop_fuel rawBytes (rawBytes.length + 1 + extra) (rawBytes.length + 1) 0 []
     (by omega) (by omega)⟩

/-- C9, witness at the scenario-A buffer: its single decode step moves
the cursor from 0 to 44 (the buffer length), and seven extra iterations
of budget change nothing. -/
theorem c9_loop_progress_and_termination_witness :
    (0 < 44 ∧ 44 ≤
      (hexToBytes "036d6f6503626f78000002000100003840001905646572656b026e730a636c6f7564666c61726503636f6d00").length) ∧
    parseLoop
      (hexToBytes "036d6f6503626f78000002000100003840001905646572656b026e730a636c6f7564666c61726503636f6d00")
      ((hexToBytes "036d6f6503626f78000002000100003840001905646572656b026e730a636c6f7564666c61726503636f6d00").length + 1 + 7)
      0 [] =
    parseLoop
      (hexToBytes "036d6f6503626f78000002000100003840001905646572656b026e730a636c6f7564666c61726503636f6d00")
      ((hexToBytes "036d6f6503626f78000002000100003840001905646572656b026e730a636c6f7564666c61726503636f6d00").length + 1)
      0 [] :=
  ⟨(c9_loop_progress_and_termination
      (hexToBytes "036d6f6503626f78000002000100003840001905646572656b026e730a636c6f7564666c61726503636f6d00")
      0 ⟨"moe.box.", 2, 1, 14400, Rdata.domainName "derek.ns.cloudflare.com."⟩ 44 7).1 (by decide),
   (c9_loop_progress_and_termination
      (hexToBytes "036d6f6503626f78000002000100003840001905646572656b026e730a636c6f7564666c61726503636f6d00")
      0 ⟨"moe.box.", 2, 1, 14400, Rdata.domainName "derek.ns.cloudflare.com."⟩ 44 7).2⟩

/-! Claim C10. -/

/-- C10: every record in a sequence returned by the RRSet Decoder is
fully populated: it arises from one successful decode step, so its
owner name was decoded by `decodeDnsName`, all four fixed-width fields
and the full RDATA lie within the buffer, and its type, class and ttl
are exactly the big-endian reads at their wire positions. -/
theorem c10_records_fully_populated (recordBytes eventOwnerNameBytes : List Nat)
    (recs : List ResourceRecord) (rr : ResourceRecord)
    (hok : parseDnsRrSet recordBytes eventOwnerNameBytes = Except.ok recs)
    (hmem : rr ∈ recs) :
    ∃ (off off' : Nat) (nr : NameResult),
      parseStep recordBytes off = some (rr, off') ∧
      decodeDnsName recordBytes off = Except.ok nr ∧
      rr.name = nr.name ∧
      nr.newOffset + 10 + readU16 recordBytes (nr.newOffset + 8) ≤ recordBytes.length ∧
      rr.type = readU16 recordBytes nr.newOffset ∧
      rr.rrClass = readU16 recordBytes (nr.newOffset + 2) ∧
      rr.ttl = readTtl recordBytes (nr.newOffset + 4) ∧
      off' = nr.newOffset + 10 + readU16 recordBytes (nr.newOffset + 8) := by
  have hrecs : recs = parseLoop recordBytes (recordBytes.length + 1) 0 [] := by
    simp only [parseDnsRrSet] at hok
    split at hok
    next => cases hok
    next => injection hok with h; exact h.symm
  rw [hrecs] at hmem
  rcases parseLoop_mem recordBytes (recordBytes.length + 1) 0 [] rr hmem with hin | ⟨o, o', hs⟩
  · cases hin
  · obtain ⟨nr, hok2, hname, hbound, htype, hclass, httl, hoff, _, _⟩ :=
      parseStep_some_spec recordBytes o rr o' hs
    exact ⟨o, o', nr, hs, hok2, hname, hbound, htype, hclass, httl, hoff⟩

/-- C10, witness at the scenario-A buffer and its single decoded
record. -/
theorem c10_records_fully_populated_witness :
    ∃ (off off' : Nat) (nr : NameResult),
      parseStep
        (hexToBytes "036d6f6503626f78000002000100003840001905646572656b026e730a636c6f7564666c61726503636f6d00")
        off = some (⟨"moe.box.", 2, 1, 14400, Rdata.domainName "derek.ns.cloudflare.com."⟩, off') ∧
      decodeDnsName
        (hexToBytes "036d6f6503626f78000002000100003840001905646572656b026e730a636c6f7564666c61726503636f6d00")
        off = Except.ok nr ∧
      (ResourceRecord.mk "moe.box." 2 1 14400
        (Rdata.domainName "derek.ns.cloudflare.com.")).name = nr.name ∧
      nr.newOffset + 10 + readU16
        (hexToBytes "036d6f6503626f78000002000100003840001905646572656b026e730a636c6f7564666c61726503636f6d00")
        (nr.newOffset + 8) ≤
        (hexToBytes "036d6f6503626f78000002000100003840001905646572656b026e730a636c6f7564666c61726503636f6d00").length ∧
      (ResourceRecord.mk "moe.box." 2 1 14400
        (Rdata.domainName "derek.ns.cloudflare.com.")).type = readU16
        (hexToBytes "036d6f6503626f78000002000100003840001905646572656b026e730a636c6f7564666c61726503636f6d00")
        nr.newOffset ∧
      (ResourceRecord.mk "moe.box." 2 1 14400
        (Rdata.domainName "derek.ns.cloudflare.com.")).rrClass = readU16
        (hexToBytes "036d6f6503626f78000002000100003840001905646572656b026e730a636c6f7564666c61726503636f6d00")
        (nr.newOffset + 2) ∧
      (ResourceRecord.mk "moe.box." 2 1 14400
        (Rdata.domainName "derek.ns.cloudflare.com.")).ttl = readTtl
        (hexToBytes "036d6f6503626f78000002000100003840001905646572656b026e730a636c6f7564666c61726503636f6d00")
        (nr.newOffset + 4) ∧
      off' = nr.newOffset + 10 + readU16
        (hexToBytes "036d6f6503626f78000002000100003840001905646572656b026e730a636c6f7564666c61726503636f6d00")
        (nr.newOffset + 8) :=
  c10_records_fully_populated
    (hexToBytes "036d6f6503626f78000002000100003840001905646572656b026e730a636c6f7564666c61726503636f6d00")
    (hexToBytes "036d6f6503626f7800")
    [⟨"moe.box.", 2, 1, 14400, Rdata.domainName "derek.ns.cloudflare.com."⟩]
    ⟨"moe.box.", 2, 1, 14400, Rdata.domainName "derek.ns.cloudflare.com."⟩
    (by decide) (by decide)
